import Mathlib

/-!
Verification of the orbit.js record transform buffer
(`packages/@orbit/record-cache/src/record-transform-buffer.ts`) and the
updatable request lifecycle protocol
(`@orbit/data` source-interfaces, `updatable.ts`).

JavaScript objects used as string-keyed dictionaries are modelled as
insertion-ordered association lists: assigning to an existing key keeps its
position, assigning a fresh key appends, `delete` removes, and
`Object.keys`/`Object.values` enumerate in insertion order (all keys here
contain `:` so none is array-index-like).
-/

namespace OrbitJs

/-- A JavaScript object used as a string-keyed dictionary. -/
abbrev Dict (α : Type) := List (String × α)

/-- `d[k]`, i.e. property lookup: the first binding of `k`, if any. -/
def dictGet {α : Type} (d : Dict α) (k : String) : Option α :=
  match d.find? (fun p => p.1 = k) with
  | some p => some p.2
  | none => none

/-- `d[k] = v`: overwrite in place if `k` is bound, else append. -/
def dictSet {α : Type} (d : Dict α) (k : String) (v : α) : Dict α :=
  if d.any (fun p => p.1 = k) then
    d.map (fun p => if p.1 = k then (k, v) else p)
  else
    d ++ [(k, v)]

/-- `delete d[k]`. -/
def dictDelete {α : Type} (d : Dict α) (k : String) : Dict α :=
  d.filter (fun p => p.1 ≠ k)

/-- `Object.keys(d)`. -/
def dictKeys {α : Type} (d : Dict α) : List String :=
  d.map (fun p => p.1)

/-- `objectValues(d)` from `@orbit/utils`, i.e. `Object.values(d)`. -/
def objectValues {α : Type} (d : Dict α) : List α :=
  d.map (fun p => p.2)

/-- `RecordIdentity`: `{ type: string, id: string }`. -/
structure RecordIdentity where
  type : String
  id : String
deriving DecidableEq, Repr

/-- A record: identity plus attributes (attributes are modelled as string
values, which is all the claims need; relationships on the record itself
play no role in the transform buffer). -/
structure Record where
  type : String
  id : String
  attributes : Dict String := []
deriving DecidableEq, Repr

/-- The identity of a record. -/
def Record.identity (r : Record) : RecordIdentity :=
  { type := r.type, id := r.id }

/-- Modelled from the spec: `serializeRecordIdentity` from `@orbit/records`
(not under `src/`): "uniqueness key is `type:id`". -/
def serializeRecordIdentity (ri : RecordIdentity) : String :=
  ri.type ++ ":" ++ ri.id

/-- JavaScript `s.split(':')`, written by structural recursion over the
character list. -/
def splitOnColon : List Char → List (List Char)
  | [] => [[]]
  | x :: xs =>
    if x = ':' then [] :: splitOnColon xs
    else
      match splitOnColon xs with
      | [] => [[x]]
      | y :: ys => (x :: y) :: ys

/-- JavaScript `s.split('::')`, written by structural recursion over the
character list. -/
def splitOnDoubleColon : List Char → List (List Char)
  | [] => [[]]
  | [x] => [[x]]
  | x :: y :: xs =>
    if x = ':' ∧ y = ':' then [] :: splitOnDoubleColon xs
    else
      match splitOnDoubleColon (y :: xs) with
      | [] => [[x]]
      | z :: zs => (x :: z) :: zs

/-- Modelled from the spec: `deserializeRecordIdentity` from
`@orbit/records` (not under `src/`), the inverse of the `type:id`
serialization: split on `:` and destructure the first two components. -/
def deserializeRecordIdentity (s : String) : RecordIdentity :=
  let parts := (splitOnColon s.data).map String.mk
  { type := parts.getD 0 "", id := parts.getD 1 "" }

/-- `RecordRelationshipIdentity`: one directed edge from `record`'s
relationship `relationship` to `relatedRecord`. -/
structure RecordRelationshipIdentity where
  record : RecordIdentity
  relationship : String
  relatedRecord : RecordIdentity
deriving DecidableEq, Repr

/-- `serializeRecordRelationshipIdentity` (record-transform-buffer.ts):
`serializeRecordIdentity(rri.record) ++ "::" ++ rri.relationship`. -/
def serializeRecordRelationshipIdentity
    (rri : RecordRelationshipIdentity) : String :=
  serializeRecordIdentity rri.record ++ "::" ++ rri.relationship

/-- `deserializeRecordRelationshipIdentity` (record-transform-buffer.ts):
split on `::` and destructure into a record identity and a relationship
name. -/
def deserializeRecordRelationshipIdentity
    (s : String) : RecordIdentity × String :=
  let parts := (splitOnDoubleColon s.data).map String.mk
  (deserializeRecordIdentity (parts.getD 0 ""), parts.getD 1 "")

/-- `RecordTransformBufferState`: records and the inverse-relationship
index; a `none` value is the TypeScript `null`. -/
structure RecordTransformBufferState where
  records : Dict (Option Record) := []
  inverseRelationships : Dict (Dict (Option RecordRelationshipIdentity)) := []
deriving DecidableEq, Repr

/-- The `RecordTransformBuffer`'s own mutable fields: `_state` and the
optional tracked-session delta `_delta`. -/
structure RecordTransformBuffer where
  state : RecordTransformBufferState := {}
  delta : Option RecordTransformBufferState := none
deriving DecidableEq, Repr

/-- `RecordChangeset`. The TypeScript type leaves each field optional and
the code materializes a field only when it first pushes to it; an absent
field and an empty list are the same "no change of this kind", so each
field is modelled as a list defaulting to `[]`. -/
structure RecordChangeset where
  setRecords : List Record := []
  removeRecords : List RecordIdentity := []
  addInverseRelationships : List RecordRelationshipIdentity := []
  removeInverseRelationships : List RecordRelationshipIdentity := []
deriving DecidableEq, Repr

namespace RecordTransformBuffer

/-- `reset(state = { records: {}, inverseRelationships: {} })`: replaces
`_state` wholesale; `_delta` is untouched. -/
def reset (b : RecordTransformBuffer)
    (state : RecordTransformBufferState := {}) : RecordTransformBuffer :=
  { b with state := state }

/-- `startTrackingChanges()`: sets `_delta` to a fresh empty state.  The
code performs no check on the existing `_delta`. -/
def startTrackingChanges (b : RecordTransformBuffer) : RecordTransformBuffer :=
  { b with delta := some {} }

/-- The changeset extracted by `stopTrackingChanges` from a delta: the
record loop pushes `null` entries to `removeRecords` (deserializing the
key) and non-null entries to `setRecords`; the nested inverse loop pushes
`null` entries to `removeInverseRelationships` and non-null entries to
`addInverseRelationships`, rebuilding each edge from its keys. -/
def changesetOfDelta (d : RecordTransformBufferState) : RecordChangeset :=
  { setRecords := d.records.filterMap (fun kv => kv.2)
    removeRecords :=
      (d.records.filter (fun kv => kv.2 = none)).map
        (fun kv => deserializeRecordIdentity kv.1)
    addInverseRelationships :=
      d.inverseRelationships.flatMap (fun kv =>
        (kv.2.filter (fun p => p.2 ≠ none)).map (fun p =>
          let ds := deserializeRecordRelationshipIdentity p.1
          { record := ds.1, relationship := ds.2
            relatedRecord := deserializeRecordIdentity kv.1 }))
    removeInverseRelationships :=
      d.inverseRelationships.flatMap (fun kv =>
        (kv.2.filter (fun p => p.2 = none)).map (fun p =>
          let ds := deserializeRecordRelationshipIdentity p.1
          { record := ds.1, relationship := ds.2
            relatedRecord := deserializeRecordIdentity kv.1 })) }

/-- `stopTrackingChanges()`: throws when `_delta` is undefined; otherwise
returns the changeset built from the delta and clears `_delta`. -/
def stopTrackingChanges (b : RecordTransformBuffer) :
    Except String (RecordChangeset × RecordTransformBuffer) :=
  match b.delta with
  | none =>
    .error "Changes are not being tracked. Call startTrackingChanges before stopTrackingChanges"
  | some d => .ok (changesetOfDelta d, { b with delta := none })

/-- `getRecordSync(identity)`: `this._state.records[key] ?? undefined`
(a stored `null` and a missing key both yield `undefined`). -/
def getRecordSync (b : RecordTransformBuffer)
    (identity : RecordIdentity) : Option Record :=
  (dictGet b.state.records (serializeRecordIdentity identity)).join

/-- Result of the string branch of `getRecordsSync`.  The code evaluates
`objectValues(this._state.records[type])`: the records dict is keyed by
`type:id`, so indexing it with a bare type string finds `undefined`
(`Object.values(undefined)` throws a TypeError) or - were a binding ever
present - a single `Record | null` value, where `Object.values(null)`
throws and `Object.values(record)` yields the record's own property
values, not a list of records. -/
inductive GetRecordsByTypeResult
  | typeError
  | fieldValuesOf (r : Record)
deriving DecidableEq, Repr

/-- The `typeof typeOrIdentities === 'string'` branch of
`getRecordsSync`. -/
def getRecordsSyncByType (b : RecordTransformBuffer)
    (type : String) : GetRecordsByTypeResult :=
  match dictGet b.state.records type with
  | none => .typeError
  | some none => .typeError
  | some (some r) => .fieldValuesOf r

/-- The `Array.isArray` branch of `getRecordsSync`: look up each identity,
keeping the records that are present. -/
def getRecordsSyncByIdentities (b : RecordTransformBuffer)
    (identities : List RecordIdentity) : List Record :=
  identities.filterMap (fun i => getRecordSync b i)

/-- `setRecordSync(record)`: store under `serializeRecordIdentity(record)`
and, when a session is open, mirror the write into the delta. -/
def setRecordSync (b : RecordTransformBuffer) (record : Record) :
    RecordTransformBuffer :=
  let k := serializeRecordIdentity record.identity
  { state := { b.state with records := dictSet b.state.records k (some record) }
    delta := b.delta.map (fun d =>
      { d with records := dictSet d.records k (some record) }) }

/-- `removeRecordSync(recordIdentity)`: when the record is present, delete
it from the state, write `null` into the delta (when a session is open),
and return the removed record; otherwise return `undefined`. -/
def removeRecordSync (b : RecordTransformBuffer)
    (recordIdentity : RecordIdentity) :
    Option Record × RecordTransformBuffer :=
  match getRecordSync b recordIdentity with
  | some record =>
    let k := serializeRecordIdentity record.identity
    (some record,
      { state := { b.state with records := dictDelete b.state.records k }
        delta := b.delta.map (fun d =>
          { d with records := dictSet d.records k none }) })
  | none => (none, b)

/-- `_getInverseRelationshipsSync(recordIdentity)`: the values of the inner
dict keyed by the record, with `null` tombstones filtered out; `[]` when the
record has no entry. -/
def getInverseRelationshipsSingle (b : RecordTransformBuffer)
    (recordIdentity : RecordIdentity) : List RecordRelationshipIdentity :=
  match dictGet b.state.inverseRelationships
      (serializeRecordIdentity recordIdentity) with
  | some rels => (objectValues rels).filterMap (fun r => r)
  | none => []

/-- The `Array.isArray` branch of `getInverseRelationshipsSync`.  The loop
body calls `Array.prototype.push(relationships, this._getInverseRelationshipsSync(record))`,
which invokes `push` with the global `Array.prototype` object as its
receiver: the two arguments are appended onto `Array.prototype` itself and
the local `relationships` array is never modified, so the function returns
it still empty.  The fold keeps the (untouched) accumulator to mirror the
loop. -/
def getInverseRelationshipsSyncList (b : RecordTransformBuffer)
    (recordIdentities : List RecordIdentity) :
    List RecordRelationshipIdentity :=
  recordIdentities.foldl
    (fun relationships record =>
      let _pushedOntoArrayPrototype := getInverseRelationshipsSingle b record
      relationships)
    []

/-- One step of `addInverseRelationshipsSync`: read (or create) the inner
dict for the related record, bind the edge under its serialized key, and
assign the inner dict back - in the state and, when a session is open, in
the delta. -/
def addInverseRelationshipStep (b : RecordTransformBuffer)
    (relationship : RecordRelationshipIdentity) : RecordTransformBuffer :=
  let ri := serializeRecordIdentity relationship.relatedRecord
  let rri := serializeRecordRelationshipIdentity relationship
  let rels := (dictGet b.state.inverseRelationships ri).getD []
  let updDelta : RecordTransformBufferState → RecordTransformBufferState :=
    fun d =>
      let drels := (dictGet d.inverseRelationships ri).getD []
      { d with inverseRelationships :=
          (dictSet d.inverseRelationships ri
            (dictSet drels rri (some relationship))) }
  { state := { b.state with
      inverseRelationships :=
        (dictSet b.state.inverseRelationships ri
          (dictSet rels rri (some relationship))) }
    delta := b.delta.map updDelta }

/-- `addInverseRelationshipsSync(relationships)`. -/
def addInverseRelationshipsSync (b : RecordTransformBuffer)
    (relationships : List RecordRelationshipIdentity) :
    RecordTransformBuffer :=
  relationships.foldl addInverseRelationshipStep b

/-- One step of `removeInverseRelationshipsSync`: when the state has an
inner dict for the related record, tombstone the edge's key with `null`
there; for the delta, `const rels = this._delta.inverseRelationships[ri] ?? {}`
is mutated in place - an inner dict already in the delta is updated through
the alias, but a freshly created `{}` is never assigned back, so the delta
is unchanged when it had no entry for the related record. -/
def removeInverseRelationshipStep (b : RecordTransformBuffer)
    (relationship : RecordRelationshipIdentity) : RecordTransformBuffer :=
  let ri := serializeRecordIdentity relationship.relatedRecord
  let rri := serializeRecordRelationshipIdentity relationship
  let updDelta : RecordTransformBufferState → RecordTransformBufferState :=
    fun d =>
      match dictGet d.inverseRelationships ri with
      | none => d
      | some drels =>
        { d with inverseRelationships :=
            dictSet d.inverseRelationships ri (dictSet drels rri none) }
  match dictGet b.state.inverseRelationships ri with
  | none => b
  | some rels =>
    { state := { b.state with
        inverseRelationships :=
          dictSet b.state.inverseRelationships ri (dictSet rels rri none) }
      delta := b.delta.map updDelta }

/-- `removeInverseRelationshipsSync(relationships)`. -/
def removeInverseRelationshipsSync (b : RecordTransformBuffer)
    (relationships : List RecordRelationshipIdentity) :
    RecordTransformBuffer :=
  relationships.foldl removeInverseRelationshipStep b

end RecordTransformBuffer

/-!
The updatable request lifecycle (`proto.update` / `proto.__update__` in
`@orbit/data`'s `updatable.ts`).  A request is modelled as a deterministic
sequential run (the spec's single cooperative timeline for one request)
producing an event trace, a result and the final transform log.  The
handler's and the observers' payloads are abstracted to strings; hints are
the mutable `{ data? }` object observers may populate.
-/

namespace Updatable

/-- A transform envelope: a stable id and an ordered operation list
(operations abstracted to opaque payloads). -/
structure Transform where
  id : String
  operations : List String := []
deriving DecidableEq, Repr

/-- The shared mutable `hints` object passed to every `beforeUpdate`
observer and then to `_update`. -/
structure Hints where
  data? : Option String := none
deriving DecidableEq, Repr

/-- A JavaScript error value, abstracted to its message. -/
abbrev JsError := String

/-- A `NamedFullResponse` contributed by a `beforeUpdate` observer on
behalf of a downstream source, abstracted to its name and data. -/
structure NamedResponse where
  name : String
  data? : Option String := none
deriving DecidableEq, Repr

/-- A `FullResponse`: primary data, resulting transforms, and the map of
named responses from contributing sources. -/
structure FullResponse where
  data? : Option String := none
  transforms : List Transform := []
  sources : List NamedResponse := []
deriving DecidableEq, Repr

/-- What one `beforeUpdate` observer does when invoked: update the shared
hints and optionally contribute a named response, or fail. -/
inductive ObserverResult
  | ok (hints : Hints) (response : Option NamedResponse)
  | err (e : JsError)

/-- A registered `beforeUpdate` observer: sees the transform and the
current hints. -/
def Observer := Transform → Hints → ObserverResult

/-- Observable events of one update request, in emission order. -/
inductive Event
  | beforeUpdate (i : Nat)
  | handlerInvoked (hints : Hints)
  | logAppend (id : String)
  | transformEvent (id : String)
  | updateEmitted (id : String)
  | updateFailEmitted (id : String) (e : JsError)
deriving DecidableEq, Repr

/-- Modelled from the spec: `fulfillInSeries` from `@orbit/core` (not under
`src/`): invoke the registered observers sequentially in registration
order, each seeing the hints as left by its predecessors, collecting every
observer's returned value, and fail the whole series at the first observer
that fails, skipping the rest.  Returns the invocation trace alongside the
outcome; `i` is the index of the first observer in the list. -/
def fulfillInSeries (t : Transform) :
    List Observer → Hints → Nat →
    List Event × Except JsError (Hints × List (Option NamedResponse))
  | [], h, _ => ([], .ok (h, []))
  | o :: rest, h, i =>
    match o t h with
    | .err e => ([.beforeUpdate i], .error e)
    | .ok h1 resp =>
      let r := fulfillInSeries t rest h1 (i + 1)
      (.beforeUpdate i :: r.1, r.2.map (fun p => (p.1, resp :: p.2)))

/-- `mapNamedFullResponses`: keep the defined (non-`undefined`) named
responses. -/
def mapNamedFullResponses (rs : List (Option NamedResponse)) :
    List NamedResponse :=
  rs.filterMap (fun r => r)

/-- Modelled from the spec: `Source#transformed` (not under `src/`):
"append each to the source's transform log and notify `transform`
observers per transform, in order". -/
def transformed (log : List String) (ts : List Transform) :
    List String × List Event :=
  ts.foldl
    (fun acc tr =>
      (acc.1 ++ [tr.id], acc.2 ++ [.logAppend tr.id, .transformEvent tr.id]))
    (log, [])

/-- The outcome of one request run: the emitted event trace, the settled
result, and the transform log afterwards. -/
structure UpdateOutcome (ρ : Type) where
  trace : List Event
  result : Except JsError ρ
  log : List String
deriving Repr

/-- `proto.__update__`: dedupe against the transform log; otherwise run the
`beforeUpdate` observers in series over a fresh `hints` object, call
`_update(transform, hints)`, attach `sources` when there was at least one
observer response slot, apply the resulting transforms (log append +
`transform` event each), emit `update`, and return the full response; on
any failure emit `updateFail` with the transform and the error and rethrow
the error unchanged. -/
def updateInternal (log : List String) (observers : List Observer)
    (handler : Transform → Hints → Except JsError FullResponse)
    (t : Transform) : UpdateOutcome FullResponse :=
  if log.contains t.id then
    { trace := [], result := .ok { transforms := [] }, log := log }
  else
    let fis := fulfillInSeries t observers {} 0
    match fis.2 with
    | .error e =>
      { trace := fis.1 ++ [.updateFailEmitted t.id e]
        result := .error e
        log := log }
    | .ok (hints, otherResponses) =>
      match handler t hints with
      | .error e =>
        { trace := fis.1 ++ [.handlerInvoked hints, .updateFailEmitted t.id e]
          result := .error e
          log := log }
      | .ok fr =>
        let fr1 :=
          if otherResponses.length > 0 then
            { fr with sources := mapNamedFullResponses otherResponses }
          else fr
        let tl := transformed log fr1.transforms
        { trace := fis.1 ++ [.handlerInvoked hints] ++ tl.2
            ++ [.updateEmitted t.id]
          result := .ok fr1
          log := tl.1 }

/-- The response `proto.update` resolves with: the bare transform list (the
dedupe short-circuit), the primary data (plain success), or the full
response envelope (when the `fullResponse` option is set). -/
inductive UpdateResponse
  | transforms (ts : List Transform)
  | data (d : Option String)
  | full (r : FullResponse)
deriving DecidableEq, Repr

/-- `proto.update`: if the transform's id is already in the transform log,
resolve immediately with `[]` (or `{ transforms: [] }` under the
`fullResponse` option); otherwise run `__update__` (the enqueued request,
modelled as a direct sequential run) and shape its response per the
`fullResponse` option. -/
def update (log : List String) (observers : List Observer)
    (handler : Transform → Hints → Except JsError FullResponse)
    (t : Transform) (fullResponse : Bool) : UpdateOutcome UpdateResponse :=
  if log.contains t.id then
    { trace := []
      result := .ok (if fullResponse then
          .full { transforms := [] }
        else
          .transforms [])
      log := log }
  else
    let o := updateInternal log observers handler t
    { trace := o.trace
      result := o.result.map (fun fr =>
        if fullResponse then .full fr else .data fr.data?)
      log := o.log }

/-- Run a list of observers in series from a given hints value, returning
the final hints when every one of them succeeds (used to phrase
hypotheses about prefixes of the registered observer list). -/
def runObservers (t : Transform) : List Observer → Hints → Option Hints
  | [], h => some h
  | o :: rest, h =>
    match o t h with
    | .ok h1 _ => runObservers t rest h1
    | .err _ => none

end Updatable

/-! Concrete fixtures used by witnesses and counterexamples. -/

/-- The planet record of the spec's concrete scenario. -/
def jupiterRecord : Record :=
  { type := "planet", id := "jupiter", attributes := [("name", "Jupiter")] }

/-- The identity `{type: 'planet', id: 'earth'}`. -/
def earthId : RecordIdentity := { type := "planet", id := "earth" }

/-- The inverse-relationship edge of the spec's concrete scenario:
`{record: {type:'star',id:'sol'}, relationship:'planets',
relatedRecord: {type:'planet',id:'earth'}}`. -/
def solPlanetsEarth : RecordRelationshipIdentity :=
  { record := { type := "star", id := "sol" }
    relationship := "planets"
    relatedRecord := earthId }

/-- A buffer whose inverse index holds exactly the edge pointing at
earth, with no tracked session. -/
def bufferWithEdge : RecordTransformBuffer :=
  { state :=
      { records := []
        inverseRelationships :=
          [("planet:earth", [("star:sol::planets", some solPlanetsEarth)])] }
    delta := none }

/-- `bufferWithEdge` with a freshly opened tracked session. -/
def bufferWithEdgeTracked : RecordTransformBuffer :=
  { bufferWithEdge with delta := some {} }

/-- A delta holding one set record and one removed record. -/
def sampleDelta : RecordTransformBufferState :=
  { records := [("planet:jupiter", some jupiterRecord), ("moon:io", none)]
    inverseRelationships := [] }

/-- A buffer with an open tracked session that has already accumulated
`sampleDelta`. -/
def trackedBuffer : RecordTransformBuffer :=
  { state := { records := [("planet:jupiter", some jupiterRecord)]
               inverseRelationships := [] }
    delta := some sampleDelta }

/-! Well-formedness of buffer dictionaries: entries are stored under the
serialization of their own value, which is how `setRecordSync` and
`addInverseRelationshipsSync` store them. -/

/-- Key-consistency of one inner inverse-index dict: every non-null entry
sits under the serialization of its own edge. -/
def innerKeyConsistent
    (inner : Dict (Option RecordRelationshipIdentity)) : Bool :=
  inner.all (fun p =>
    match p.2 with
    | some rel => p.1 = serializeRecordRelationshipIdentity rel
    | none => true)

/-- `innerKeyConsistent` lifted to the result of a dictionary lookup. -/
def innerKeyConsistentOpt :
    Option (Dict (Option RecordRelationshipIdentity)) → Bool
  | none => true
  | some inner => innerKeyConsistent inner

/-- Key-consistency of a records dict: every non-null entry sits under the
serialization of its record's identity. -/
def recordsKeyConsistent (d : Dict (Option Record)) : Bool :=
  d.all (fun p =>
    match p.2 with
    | some r => p.1 = serializeRecordIdentity r.identity
    | none => true)

/-- An observer that leaves the hints untouched and contributes no named
response. -/
def okObserver : Updatable.Observer := fun _ h => .ok h none

/-- An observer that always fails with the error `"boom"`. -/
def failObserver : Updatable.Observer := fun _ _ => .err "boom"

/-- A handler that resolves with an empty full response. -/
def emptyHandler : Updatable.Transform → Updatable.Hints →
    Except Updatable.JsError Updatable.FullResponse := fun _ _ => .ok {}


/-! Lemmas about the dictionary model. -/

theorem dictGet_cons {α : Type} (p : String × α) (rest : Dict α)
    (k : String) :
    dictGet (p :: rest) k = if p.1 = k then some p.2 else dictGet rest k := by
  by_cases hp : p.1 = k
  · simp [dictGet, List.find?, hp]
  · simp [dictGet, List.find?, hp]

theorem dictGet_eq_none {α : Type} (d : Dict α) (k : String)
    (h : d.any (fun p => p.1 = k) = false) : dictGet d k = none := by
  induction d with
  | nil => rfl
  | cons p rest ih =>
    simp only [List.any_cons, Bool.or_eq_false_iff, decide_eq_false_iff_not]
      at h
    rw [dictGet_cons, if_neg h.1]
    exact ih h.2

theorem dictGet_map_overwrite {α : Type} (d : Dict α) (k : String) (v : α)
    (h : d.any (fun p => p.1 = k) = true) :
    dictGet (d.map (fun p => if p.1 = k then (k, v) else p)) k = some v := by
  induction d with
  | nil => simp at h
  | cons p rest ih =>
    by_cases hp : p.1 = k
    · rw [List.map_cons, if_pos hp, dictGet_cons, if_pos rfl]
    · rw [List.map_cons, if_neg hp, dictGet_cons, if_neg hp]
      simp only [List.any_cons, decide_eq_true_eq, hp, false_or] at h
      exact ih h

theorem dictGet_append_new {α : Type} (d : Dict α) (k : String) (v : α)
    (h : d.any (fun p => p.1 = k) = false) :
    dictGet (d ++ [(k, v)]) k = some v := by
  induction d with
  | nil => rw [List.nil_append, dictGet_cons, if_pos rfl]
  | cons p rest ih =>
    simp only [List.any_cons, Bool.or_eq_false_iff, decide_eq_false_iff_not]
      at h
    rw [List.cons_append, dictGet_cons, if_neg h.1]
    exact ih h.2

theorem dictGet_dictSet_self {α : Type} (d : Dict α) (k : String) (v : α) :
    dictGet (dictSet d k v) k = some v := by
  unfold dictSet
  by_cases hany : d.any (fun p => p.1 = k) = true
  · rw [if_pos hany]
    exact dictGet_map_overwrite d k v hany
  · rw [if_neg hany]
    exact dictGet_append_new d k v (Bool.not_eq_true _ ▸ hany)

theorem mem_dictSet_self {α : Type} (d : Dict α) (k : String) (v : α) :
    (k, v) ∈ dictSet d k v := by
  unfold dictSet
  by_cases hany : d.any (fun p => p.1 = k) = true
  · rw [if_pos hany]
    simp only [List.any_eq_true, decide_eq_true_eq] at hany
    obtain ⟨p, hp, hpk⟩ := hany
    rw [List.mem_map]
    exact ⟨p, hp, by rw [if_pos hpk]⟩
  · rw [if_neg hany]
    simp

theorem mem_dictSet {α : Type} {d : Dict α} {k : String} {v : α}
    {p : String × α} (h : p ∈ dictSet d k v) :
    p = (k, v) ∨ (p ∈ d ∧ p.1 ≠ k) := by
  unfold dictSet at h
  by_cases hany : d.any (fun q => q.1 = k) = true
  · rw [if_pos hany] at h
    rw [List.mem_map] at h
    obtain ⟨q, hq, hqp⟩ := h
    by_cases hqk : q.1 = k
    · rw [if_pos hqk] at hqp
      exact Or.inl hqp.symm
    · rw [if_neg hqk] at hqp
      exact Or.inr ⟨hqp ▸ hq, hqp ▸ hqk⟩
  · rw [if_neg hany] at h
    rw [List.mem_append] at h
    rcases h with h | h
    · refine Or.inr ⟨h, ?_⟩
      intro hk
      rw [Bool.not_eq_true] at hany
      rw [List.any_eq_false] at hany
      have := hany p h
      simp [hk] at this
    · simp at h
      exact Or.inl h

/-! Claim theorems. -/

open Updatable in
/-- C1: for every updatable source and every transform whose id is already
contained in the source's transform log, `update` resolves immediately with
an empty transform list (`{transforms: []}` under the `fullResponse`
option), no `beforeUpdate` observer runs, the `_update` handler is not
invoked (the trace is empty), and the source's state (its transform log) is
unchanged - so a second call with an already-logged transform leaves the
state equal to the state after the first. -/
theorem update_dedupe_noop (log : List String) (observers : List Observer)
    (handler : Transform → Hints → Except JsError FullResponse)
    (t : Transform) (fullResponse : Bool)
    (h : log.contains t.id = true) :
    update log observers handler t fullResponse =
      { trace := []
        result := .ok (if fullResponse then
            .full { transforms := [] }
          else
            .transforms [])
        log := log } := by
  unfold update
  rw [if_pos h]

open Updatable in
/-- Witness for C1 at a concrete source whose log already holds `"t1"`. -/
theorem update_dedupe_noop_witness :
    (["t1"] : List String).contains "t1" = true ∧
    update ["t1"] [] (fun _ _ => .ok {}) { id := "t1" } false =
      { trace := [], result := .ok (.transforms []), log := ["t1"] } :=
  ⟨by decide,
    update_dedupe_noop ["t1"] [] (fun _ _ => .ok {}) { id := "t1" } false
      (by decide)⟩

/-- C2: the code evaluated at the failing input.  `bufferWithEdge` holds
one inbound edge for earth; the single-identity read returns it, but the
one-element-list read returns `[]` (the loop's
`Array.prototype.push(relationships, ...)` call appends onto
`Array.prototype` itself, never onto the local accumulator), not the
claimed concatenation of each listed record's edges. -/
theorem getInverseRelationships_list_loses_edges :
    RecordTransformBuffer.getInverseRelationshipsSyncList bufferWithEdge
        [earthId] = [] ∧
    RecordTransformBuffer.getInverseRelationshipsSingle bufferWithEdge
        earthId = [solPlanetsEarth] := by
  constructor <;> rfl

/-- C3: the code evaluated at the failing input.  With a freshly opened
session, removing the pre-session edge tombstones it in the primary state
(second conjunct), yet the changeset from `stopTrackingChanges` has an
empty `removeInverseRelationships` (first conjunct): the delta write in
`removeInverseRelationshipsSync` mutates a fresh `{}` that is never
assigned back into `_delta.inverseRelationships`. -/
theorem stopTracking_misses_preexisting_edge_removal :
    (RecordTransformBuffer.stopTrackingChanges
          (RecordTransformBuffer.removeInverseRelationshipsSync
            bufferWithEdgeTracked [solPlanetsEarth])).map
        (fun p => p.1.removeInverseRelationships) = .ok [] ∧
    dictGet
        (RecordTransformBuffer.removeInverseRelationshipsSync
          bufferWithEdgeTracked [solPlanetsEarth]).state.inverseRelationships
        "planet:earth" = some [("star:sol::planets", none)] := by
  constructor <;> rfl

/-- C4 counterexample: with a session already open (its delta holds a
pending record removal), calling `startTrackingChanges` again does not fail
- it returns normally, silently replacing the open session with a fresh
one whose delta is empty. -/
theorem startTrackingChanges_nested_counterexample :
    RecordTransformBuffer.startTrackingChanges
        { state := {}
          delta := some { records := [("planet:jupiter", none)]
                          inverseRelationships := [] } } =
      { state := {}, delta := some {} } := by
  rfl

/-- C4 (amended): `startTrackingChanges` never fails; called while a
tracked session is open it silently opens a fresh session in place of the
existing one, discarding the accumulated delta, and leaves the primary
state untouched. -/
theorem startTrackingChanges_replaces_session (b : RecordTransformBuffer) :
    b.startTrackingChanges = { b with delta := some {} } :=
  rfl

/-- C5: the code evaluated at the failing input.  With exactly one planet
record stored (under its `type:id` key), `getRecordsSync('planet')`
evaluates `Object.values(this._state.records['planet'])`, and since the
records dict is keyed by `type:id` the lookup yields `undefined` and the
call throws a TypeError - it does not return the one-element list the
claim describes (the identity-list branch, second conjunct, does find the
record). -/
theorem getRecordsByType_throws :
    RecordTransformBuffer.getRecordsSyncByType
        { state := { records := [("planet:jupiter", some jupiterRecord)]
                     inverseRelationships := [] }
          delta := none } "planet" = .typeError ∧
    RecordTransformBuffer.getRecordsSyncByIdentities
        { state := { records := [("planet:jupiter", some jupiterRecord)]
                     inverseRelationships := [] }
          delta := none } [{ type := "planet", id := "jupiter" }] =
      [jupiterRecord] := by
  constructor <;> rfl

/-- C10: `reset` while a session is open replaces only the primary state:
the session stays open with its delta intact, so a later
`stopTrackingChanges` still succeeds, and it returns exactly the changeset
of the delta accumulated before the reset - the same changeset a
`stopTrackingChanges` without the intervening reset would have
returned. -/
theorem reset_preserves_tracking (b : RecordTransformBuffer)
    (st d : RecordTransformBufferState) (h : b.delta = some d) :
    (b.reset st).delta = some d ∧
    (b.reset st).stopTrackingChanges =
      .ok (RecordTransformBuffer.changesetOfDelta d,
        { state := st, delta := none }) ∧
    b.stopTrackingChanges =
      .ok (RecordTransformBuffer.changesetOfDelta d,
        { state := b.state, delta := none }) := by
  refine ⟨?_, ?_, ?_⟩ <;>
    simp [RecordTransformBuffer.reset, RecordTransformBuffer.stopTrackingChanges, h]

/-- Witness for C10 at a concrete buffer whose open session has recorded a
set record and a removed record. -/
theorem reset_preserves_tracking_witness :
    trackedBuffer.delta = some sampleDelta ∧
    ((trackedBuffer.reset {}).delta = some sampleDelta ∧
      (trackedBuffer.reset {}).stopTrackingChanges =
        .ok (RecordTransformBuffer.changesetOfDelta sampleDelta,
          { state := {}, delta := none }) ∧
      trackedBuffer.stopTrackingChanges =
        .ok (RecordTransformBuffer.changesetOfDelta sampleDelta,
          { state := trackedBuffer.state, delta := none })) :=
  ⟨rfl, reset_preserves_tracking trackedBuffer {} sampleDelta rfl⟩

/-- C9: an edge removed via `removeInverseRelationshipsSync` is absent from
a subsequent single-identity read of its related record: removal leaves a
`null` tombstone under the edge's key (or finds no inner dict at all), and
the read filters `null` entries out.  The hypothesis says the related
record's inner dict, if any, stores every live edge under its own
serialized key - the invariant `addInverseRelationshipsSync` maintains. -/
theorem removed_edge_not_returned (b : RecordTransformBuffer)
    (e : RecordRelationshipIdentity)
    (hwf : innerKeyConsistentOpt
      (dictGet b.state.inverseRelationships
        (serializeRecordIdentity e.relatedRecord)) = true) :
    e ∉ RecordTransformBuffer.getInverseRelationshipsSingle
        (RecordTransformBuffer.removeInverseRelationshipsSync b [e])
        e.relatedRecord := by
  intro hmem
  have hstep : RecordTransformBuffer.removeInverseRelationshipsSync b [e]
      = RecordTransformBuffer.removeInverseRelationshipStep b e := rfl
  rw [hstep] at hmem
  cases hg : dictGet b.state.inverseRelationships
      (serializeRecordIdentity e.relatedRecord) with
  | none =>
    simp only [RecordTransformBuffer.removeInverseRelationshipStep, hg]
      at hmem
    unfold RecordTransformBuffer.getInverseRelationshipsSingle at hmem
    rw [hg] at hmem
    simp at hmem
  | some rels =>
    simp only [RecordTransformBuffer.removeInverseRelationshipStep, hg]
      at hmem
    unfold RecordTransformBuffer.getInverseRelationshipsSingle at hmem
    simp only [dictGet_dictSet_self] at hmem
    rw [List.mem_filterMap] at hmem
    obtain ⟨o, ho, hoe⟩ := hmem
    rw [hoe] at ho
    unfold objectValues at ho
    rw [List.mem_map] at ho
    obtain ⟨p, hp, hp2⟩ := ho
    rcases mem_dictSet hp with heq | ⟨hpin, hpk⟩
    · rw [heq] at hp2
      exact Option.noConfusion hp2
    · rw [hg] at hwf
      unfold innerKeyConsistentOpt innerKeyConsistent at hwf
      rw [List.all_eq_true] at hwf
      have := hwf p hpin
      rw [hp2] at this
      simp only [decide_eq_true_eq] at this
      exact hpk this

/-- Witness for C9 at the concrete buffer holding the sol-planets-earth
edge. -/
theorem removed_edge_not_returned_witness :
    innerKeyConsistentOpt
        (dictGet bufferWithEdge.state.inverseRelationships
          (serializeRecordIdentity solPlanetsEarth.relatedRecord)) = true ∧
    solPlanetsEarth ∉ RecordTransformBuffer.getInverseRelationshipsSingle
        (RecordTransformBuffer.removeInverseRelationshipsSync bufferWithEdge
          [solPlanetsEarth])
        solPlanetsEarth.relatedRecord :=
  ⟨by decide,
    removed_edge_not_returned bufferWithEdge solPlanetsEarth (by decide)⟩

/-- C6: in a tracked session, setting a record and then removing it leaves
only the net effect in the changeset: `stopTrackingChanges` lists the
record's identity under `removeRecords` and the record does not appear
under `setRecords`.  The hypotheses say the session's delta stores
records under their serialized identities (`setRecordSync`'s own
invariant) and that the record's `type:id` key round-trips (its type and
id contain no `:`). -/
theorem set_then_remove_nets_to_remove (b : RecordTransformBuffer)
    (d : RecordTransformBufferState) (r : Record)
    (hd : b.delta = some d)
    (hwf : recordsKeyConsistent d.records = true)
    (hrt : deserializeRecordIdentity (serializeRecordIdentity r.identity)
      = r.identity) :
    ∃ cs rest,
      ((b.setRecordSync r).removeRecordSync r.identity).2.stopTrackingChanges
        = .ok (cs, rest) ∧
      r.identity ∈ cs.removeRecords ∧
      r ∉ cs.setRecords := by
  set k := serializeRecordIdentity r.identity with hk
  have hget : (b.setRecordSync r).getRecordSync r.identity = some r := by
    unfold RecordTransformBuffer.getRecordSync RecordTransformBuffer.setRecordSync
    simp [dictGet_dictSet_self, Option.join]
  have hd2 : ((b.setRecordSync r).removeRecordSync r.identity).2.delta =
      some { d with
        records := dictSet (dictSet d.records k (some r)) k none } := by
    unfold RecordTransformBuffer.removeRecordSync
    rw [hget]
    simp [RecordTransformBuffer.setRecordSync, hd]
  refine ⟨RecordTransformBuffer.changesetOfDelta
      { d with records := dictSet (dictSet d.records k (some r)) k none },
    { ((b.setRecordSync r).removeRecordSync r.identity).2 with delta := none },
    ?_, ?_, ?_⟩
  · simp only [RecordTransformBuffer.stopTrackingChanges, hd2]
  · simp only [RecordTransformBuffer.changesetOfDelta]
    rw [List.mem_map]
    refine ⟨(k, none), ?_, ?_⟩
    · rw [List.mem_filter]
      exact ⟨mem_dictSet_self _ _ _, by simp⟩
    · exact hrt
  · intro hr
    simp only [RecordTransformBuffer.changesetOfDelta] at hr
    rw [List.mem_filterMap] at hr
    obtain ⟨p, hp, hp2⟩ := hr
    rcases mem_dictSet hp with heq | ⟨hp1, hne⟩
    · rw [heq] at hp2
      exact Option.noConfusion hp2
    · rcases mem_dictSet hp1 with heq | ⟨hp0, hne0⟩
      · exact hne (by rw [heq])
      · unfold recordsKeyConsistent at hwf
        rw [List.all_eq_true] at hwf
        have hkey := hwf p hp0
        rw [hp2] at hkey
        simp only [decide_eq_true_eq] at hkey
        exact hne0 hkey

/-- Running `fulfillInSeries` over observers that all succeed: each
observer is invoked once, in registration order, and the final hints are
the ones produced by threading the shared hints object through the
series. -/
theorem Updatable.fulfillInSeries_ok (t : Updatable.Transform)
    (obs : List Updatable.Observer) (h hf : Updatable.Hints) (i : Nat)
    (hrun : Updatable.runObservers t obs h = some hf) :
    ∃ resps : List (Option Updatable.NamedResponse),
      Updatable.fulfillInSeries t obs h i =
        ((List.range' i obs.length).map Updatable.Event.beforeUpdate,
          .ok (hf, resps)) ∧
      resps.length = obs.length := by
  induction obs generalizing h i with
  | nil =>
    unfold Updatable.runObservers at hrun
    cases hrun
    exact ⟨[], rfl, rfl⟩
  | cons o rest ih =>
    unfold Updatable.runObservers at hrun
    cases ho : o t h with
    | err e =>
      rw [ho] at hrun
      exact Option.noConfusion hrun
    | ok h1 resp =>
      rw [ho] at hrun
      obtain ⟨resps, hfis, hlen⟩ := ih h1 (i + 1) hrun
      refine ⟨resp :: resps, ?_, by simpa using hlen⟩
      unfold Updatable.fulfillInSeries
      rw [ho]
      simp [hfis, List.range'_succ, Except.map]

/-- Running `fulfillInSeries` when the observers up to some point succeed
and the next one fails: exactly the leading observers and the failing one
are invoked, the rest are skipped, and the series fails with the failing
observer's error. -/
theorem Updatable.fulfillInSeries_err (t : Updatable.Transform)
    (pre post : List Updatable.Observer) (f : Updatable.Observer)
    (h0 hmid : Updatable.Hints) (e : Updatable.JsError) (i : Nat)
    (hrun : Updatable.runObservers t pre h0 = some hmid)
    (hfail : f t hmid = .err e) :
    Updatable.fulfillInSeries t (pre ++ f :: post) h0 i =
      ((List.range' i (pre.length + 1)).map Updatable.Event.beforeUpdate,
        .error e) := by
  induction pre generalizing h0 i with
  | nil =>
    unfold Updatable.runObservers at hrun
    cases hrun
    simp only [List.nil_append]
    unfold Updatable.fulfillInSeries
    simp [hfail, List.range'_succ]
  | cons o rest ih =>
    unfold Updatable.runObservers at hrun
    cases ho : o t h0 with
    | err e2 =>
      rw [ho] at hrun
      exact Option.noConfusion hrun
    | ok h1 resp =>
      rw [ho] at hrun
      have hrest := ih h1 (i + 1) hrun
      rw [List.cons_append]
      unfold Updatable.fulfillInSeries
      rw [ho]
      simp [hrest, List.range'_succ, Except.map]

/-- `transformed` in closed form: the final log is the original log with
every transform's id appended in order, and the emitted events are, per
transform in order, a log append followed by the `transform` event. -/
theorem Updatable.transformed_eq (log : List String)
    (ts : List Updatable.Transform) :
    Updatable.transformed log ts =
      (log ++ ts.map (fun tr => tr.id),
        ts.flatMap (fun tr =>
          [Updatable.Event.logAppend tr.id,
            Updatable.Event.transformEvent tr.id])) := by
  suffices h : ∀ (lg : List String) (evs : List Updatable.Event),
      ts.foldl
        (fun acc tr =>
          (acc.1 ++ [tr.id],
            acc.2 ++ [Updatable.Event.logAppend tr.id,
              Updatable.Event.transformEvent tr.id]))
        (lg, evs) =
        (lg ++ ts.map (fun tr => tr.id),
          evs ++ ts.flatMap (fun tr =>
            [Updatable.Event.logAppend tr.id,
              Updatable.Event.transformEvent tr.id])) by
    unfold Updatable.transformed
    simpa using h log []
  induction ts with
  | nil => simp
  | cons tr rest ih =>
    intro lg evs
    simp [ih, List.append_assoc]

open Updatable in
/-- C7: when a `beforeUpdate` observer fails, the observers registered
after it are not invoked (the trace holds exactly the `beforeUpdate`
events of the preceding observers and the failing one), the `_update`
handler is never invoked, the `updateFail` event is emitted with the
transform and the error, and the same error is rethrown unchanged to the
caller; the transform log is untouched. -/
theorem update_beforeHook_failure (log : List String)
    (pre post : List Observer) (f : Observer)
    (handler : Transform → Hints → Except JsError FullResponse)
    (t : Transform) (fullResponse : Bool) (hmid : Hints) (e : JsError)
    (hlog : log.contains t.id = false)
    (hpre : runObservers t pre {} = some hmid)
    (hfail : f t hmid = .err e) :
    update log (pre ++ f :: post) handler t fullResponse =
      { trace := (List.range' 0 (pre.length + 1)).map Event.beforeUpdate
          ++ [Event.updateFailEmitted t.id e]
        result := .error e
        log := log } ∧
    (∀ hs : Hints, Event.handlerInvoked hs ∉
      (update log (pre ++ f :: post) handler t fullResponse).trace) ∧
    (∀ j : Nat, pre.length < j → Event.beforeUpdate j ∉
      (update log (pre ++ f :: post) handler t fullResponse).trace) := by
  have hfis := Updatable.fulfillInSeries_err t pre post f {} hmid e 0 hpre hfail
  have hmain : update log (pre ++ f :: post) handler t fullResponse =
      { trace := (List.range' 0 (pre.length + 1)).map Event.beforeUpdate
          ++ [Event.updateFailEmitted t.id e]
        result := .error e
        log := log } := by
    have hmem : ¬ t.id ∈ log := by simpa using hlog
    unfold update updateInternal
    simp [hmem, hfis, Except.map]
  refine ⟨hmain, ?_, ?_⟩
  · intro hs
    rw [hmain]
    simp
  · intro j hj
    rw [hmain]
    simp only [UpdateOutcome.trace, List.mem_append, List.mem_map,
      List.mem_range'_1, List.mem_singleton]
    rintro (⟨m, hm, hme⟩ | hme)
    · cases hme
      omega
    · exact Event.noConfusion hme

open Updatable in
/-- Witness for C7: one succeeding observer, then a failing one, then one
more that must be skipped. -/
theorem update_beforeHook_failure_witness :
    update [] ([okObserver] ++ failObserver :: [okObserver]) emptyHandler
        { id := "t1" } false =
      { trace := (List.range' 0 2).map Event.beforeUpdate
          ++ [Event.updateFailEmitted "t1" "boom"]
        result := .error "boom"
        log := [] } ∧
    (∀ hs : Hints, Event.handlerInvoked hs ∉
      (update [] ([okObserver] ++ failObserver :: [okObserver]) emptyHandler
        { id := "t1" } false).trace) ∧
    (∀ j : Nat, 1 < j → Event.beforeUpdate j ∉
      (update [] ([okObserver] ++ failObserver :: [okObserver]) emptyHandler
        { id := "t1" } false).trace) :=
  update_beforeHook_failure [] [okObserver] [okObserver] failObserver
    emptyHandler { id := "t1" } false {} "boom" rfl rfl rfl

open Updatable in
/-- C8: a successful update runs its phases in strict order - every
`beforeUpdate` observer in registration order (the shared hints object
threads through them and its final value `hf` is what the handler
receives), then the handler, then per resulting transform in order a log
append followed by the `transform` event, then the `update` success event
last - the final log is the old log with the transforms' ids appended, and
the request resolves successfully (with the full response under the
`fullResponse` option, else the primary data). -/
theorem update_success_ordering (log : List String) (obs : List Observer)
    (handler : Transform → Hints → Except JsError FullResponse)
    (t : Transform) (fullResponse : Bool) (hf : Hints) (fr : FullResponse)
    (hlog : log.contains t.id = false)
    (hrun : runObservers t obs {} = some hf)
    (hhandler : handler t hf = .ok fr) :
    (update log obs handler t fullResponse).trace =
      (List.range' 0 obs.length).map Event.beforeUpdate
        ++ Event.handlerInvoked hf
          :: ((fr.transforms.flatMap fun tr =>
              [Event.logAppend tr.id, Event.transformEvent tr.id])
            ++ [Event.updateEmitted t.id]) ∧
    (update log obs handler t fullResponse).log =
      log ++ fr.transforms.map (fun tr => tr.id) ∧
    ∃ srcs, (update log obs handler t fullResponse).result =
      .ok (if fullResponse then
          UpdateResponse.full { fr with sources := srcs }
        else
          UpdateResponse.data fr.data?) := by
  obtain ⟨resps, hfis, hlen⟩ := Updatable.fulfillInSeries_ok t obs {} hf 0 hrun
  by_cases hc : resps.length > 0
  · have hmain : update log obs handler t fullResponse =
        { trace := (List.range' 0 obs.length).map Event.beforeUpdate
            ++ Event.handlerInvoked hf
              :: ((fr.transforms.flatMap fun tr =>
                  [Event.logAppend tr.id, Event.transformEvent tr.id])
                ++ [Event.updateEmitted t.id])
          result := .ok (if fullResponse then
              UpdateResponse.full
                { fr with sources := mapNamedFullResponses resps }
            else
              UpdateResponse.data fr.data?)
          log := log ++ fr.transforms.map (fun tr => tr.id) } := by
      have hmem : ¬ t.id ∈ log := by simpa using hlog
      unfold update updateInternal
      simp [hmem, hfis, hhandler, hc, Updatable.transformed_eq, Except.map]
    rw [hmain]
    exact ⟨rfl, rfl, mapNamedFullResponses resps, rfl⟩
  · have hmain : update log obs handler t fullResponse =
        { trace := (List.range' 0 obs.length).map Event.beforeUpdate
            ++ Event.handlerInvoked hf
              :: ((fr.transforms.flatMap fun tr =>
                  [Event.logAppend tr.id, Event.transformEvent tr.id])
                ++ [Event.updateEmitted t.id])
          result := .ok (if fullResponse then
              UpdateResponse.full fr
            else
              UpdateResponse.data fr.data?)
          log := log ++ fr.transforms.map (fun tr => tr.id) } := by
      have hmem : ¬ t.id ∈ log := by simpa using hlog
      unfold update updateInternal
      simp [hmem, hfis, hhandler, hc, Updatable.transformed_eq, Except.map]
    rw [hmain]
    exact ⟨rfl, rfl, fr.sources, rfl⟩

open Updatable in
/-- Witness for C8: two observers (the second contributing a named
response), a handler returning two transforms, on an empty log. -/
theorem update_success_ordering_witness :
    (update [] [okObserver, okObserver]
        (fun _ _ => .ok { data? := some "d"
                          transforms := [{ id := "t1" }, { id := "t2" }] })
        { id := "t0" } false).trace =
      (List.range' 0 2).map Event.beforeUpdate
        ++ Event.handlerInvoked {}
          :: ((([{ id := "t1" }, { id := "t2" }] :
                List Transform).flatMap fun tr =>
              [Event.logAppend tr.id, Event.transformEvent tr.id])
            ++ [Event.updateEmitted "t0"]) ∧
    (update [] [okObserver, okObserver]
        (fun _ _ => .ok { data? := some "d"
                          transforms := [{ id := "t1" }, { id := "t2" }] })
        { id := "t0" } false).log =
      [] ++ ([{ id := "t1" }, { id := "t2" }] :
        List Transform).map (fun tr => tr.id) ∧
    ∃ srcs, (update [] [okObserver, okObserver]
        (fun _ _ => .ok { data? := some "d"
                          transforms := [{ id := "t1" }, { id := "t2" }] })
        { id := "t0" } false).result =
      .ok (if false then
          UpdateResponse.full
            { data? := some "d"
              transforms := [{ id := "t1" }, { id := "t2" }]
              sources := srcs }
        else
          UpdateResponse.data (some "d")) :=
  update_success_ordering [] [okObserver, okObserver]
    (fun _ _ => .ok { data? := some "d"
                      transforms := [{ id := "t1" }, { id := "t2" }] })
    { id := "t0" } false {}
    { data? := some "d", transforms := [{ id := "t1" }, { id := "t2" }] }
    rfl rfl rfl

/-- Witness for C6: a fresh tracked session on an empty buffer, set the
jupiter record, remove it, stop: the changeset removes its identity and
does not set the record. -/
theorem set_then_remove_nets_to_remove_witness :
    ∃ cs rest,
      ((RecordTransformBuffer.setRecordSync
            { state := {}, delta := some ({} : RecordTransformBufferState) }
            jupiterRecord).removeRecordSync
          jupiterRecord.identity).2.stopTrackingChanges = .ok (cs, rest) ∧
      jupiterRecord.identity ∈ cs.removeRecords ∧
      jupiterRecord ∉ cs.setRecords :=
  set_then_remove_nets_to_remove
    { state := {}, delta := some {} } {} jupiterRecord rfl (by decide)
    (by decide)

end OrbitJs
